import Mathlib

/-!
Shallow embedding of the Green-Marl GPS backend edge-property legality pass
(`src/backend_gps/gm_gps_new_check_edge_value.cc`) and a verification of its
documented behaviour.

The pass's own code (the state machine `manage_edge_prop_access_state`, the
visitor `gps_check_edge_value_t` with its `apply` overloads and `apply2`, and
the driver `gm_gps_opt_check_edge_value::process`) is embedded directly from
the source.  The surrounding compiler infrastructure (the AST node model, the
symbol-table/type model, the annotation store and the traversal engine
`traverse_both`) lives in headers and translation units that are not part of
these sources; those parts are modelled from the specification, as noted on
each definition.
-/

/-- Per-(inner-loop, symbol) edge access states, the `GPS_ENUM_EDGE_VALUE_xxx`
constants.  Modelled from the spec: the enum constants are declared in a
backend header that is not among the sources; the data-model section lists
exactly these five states. -/
inductive EdgeValueState where
  | WRITE
  | SENT
  | WRITE_SENT
  | SENT_WRITE
  | ERROR
  deriving DecidableEq, Repr

/-- The two operations fed to the state machine (`SENDING = 1`, `WRITING = 2`
in the source). -/
inductive EdgeOp where
  | SENDING
  | WRITING
  deriving DecidableEq, Repr

/-- The contents of the `GPS_MAP_EDGE_PROP_ACCESS` annotation maps, flattened
over all owners: an association list from (foreach node id, symbol id) to the
stored state.  Modelled from the spec: the annotation store
(`find_info_map_value` / `add_info_map_key_value`) is an extensible key-value
side table, lazily created on first write, living outside the sources. -/
abbrev AccessMap := List ((Nat × Nat) × EdgeValueState)

/-- Lookup in the access map (`fe->find_info_map_value(GPS_MAP_EDGE_PROP_ACCESS, e)`). -/
def mapFind : AccessMap → (Nat × Nat) → Option EdgeValueState
  | [], _ => none
  | (k, v) :: rest, key => if k = key then some v else mapFind rest key

/-- Update an existing key in place, or append a fresh binding.  This covers
both the in-place `*curr_state = ...` writes and
`add_info_map_key_value` (which is only called when the key is absent). -/
def mapSet : AccessMap → (Nat × Nat) → EdgeValueState → AccessMap
  | [], key, v => [(key, v)]
  | (k, w) :: rest, key, v =>
      if k = key then (k, v) :: rest else (k, w) :: mapSet rest key v

/-- Embedding of `manage_edge_prop_access_state` (the static function at the
top of the source file).  The C++ function mutates the map owned by the
foreach `fe` and returns `is_error`; here the map is passed and returned
explicitly, with the owner `fe` and the symbol `e` given by their ids. -/
def manage_edge_prop_access_state (m : AccessMap) (feId symId : Nat) (op : EdgeOp) :
    AccessMap × Bool :=
  match mapFind m (feId, symId) with
  | none =>
      -- first access
      let newState := if op = EdgeOp.SENDING then EdgeValueState.SENT else EdgeValueState.WRITE
      (mapSet m (feId, symId) newState, false)
  | some curr =>
      match curr with
      | .ERROR => (m, false)                      -- already error
      | .WRITE =>
          (if op = EdgeOp.SENDING then mapSet m (feId, symId) .WRITE_SENT else m, false)
      | .SENT =>
          (if op = EdgeOp.WRITING then mapSet m (feId, symId) .SENT_WRITE else m, false)
      | .WRITE_SENT =>
          (if op = EdgeOp.WRITING then mapSet m (feId, symId) .SENT_WRITE else m, false)
      | .SENT_WRITE =>
          if op = EdgeOp.SENDING then
            (mapSet m (feId, symId) .ERROR, true)  -- sending two versions!
          else
            (m, false)

/-- Transition table exactly as the spec words it (version-transport rule):
spec-side definition, to be compared with `manage_edge_prop_access_state`. -/
def specEdgeStep : Option EdgeValueState → EdgeOp → Option EdgeValueState
  | none, .SENDING => some .SENT
  | none, .WRITING => some .WRITE
  | some .WRITE, .SENDING => some .WRITE_SENT
  | some .WRITE, .WRITING => some .WRITE
  | some .SENT, .WRITING => some .SENT_WRITE
  | some .SENT, .SENDING => some .SENT
  | some .WRITE_SENT, .WRITING => some .SENT_WRITE
  | some .WRITE_SENT, .SENDING => some .WRITE_SENT
  | some .SENT_WRITE, .WRITING => some .SENT_WRITE
  | some .SENT_WRITE, .SENDING => some .ERROR
  | some .ERROR, _ => some .ERROR

/-- Processing a whole sequence of write/send events for one
(inner loop, symbol) pair through the code's state machine. -/
def runEdgeOps (m : AccessMap) (feId symId : Nat) (ops : List EdgeOp) : AccessMap :=
  ops.foldl (fun acc op => (manage_edge_prop_access_state acc feId symId op).1) m

theorem mapFind_mapSet_self (m : AccessMap) (k : Nat × Nat) (v : EdgeValueState) :
    mapFind (mapSet m k v) k = some v := by
  induction m with
  | nil => simp [mapSet, mapFind]
  | cons hd tl ih =>
      obtain ⟨k', v'⟩ := hd
      by_cases h : k' = k
      · simp [mapSet, mapFind, h]
      · simp [mapSet, mapFind, h, ih]

theorem manage_find_eq_specEdgeStep (m : AccessMap) (feId symId : Nat) (op : EdgeOp) :
    mapFind (manage_edge_prop_access_state m feId symId op).1 (feId, symId)
      = specEdgeStep (mapFind m (feId, symId)) op := by
  unfold manage_edge_prop_access_state
  cases h : mapFind m (feId, symId) with
  | none => cases op <;> simp [h, specEdgeStep, mapFind_mapSet_self]
  | some curr => cases curr <;> cases op <;> simp [h, specEdgeStep, mapFind_mapSet_self]

theorem runEdgeOps_find (ops : List EdgeOp) :
    ∀ (m : AccessMap) (feId symId : Nat),
      mapFind (runEdgeOps m feId symId ops) (feId, symId)
        = ops.foldl specEdgeStep (mapFind m (feId, symId)) := by
  induction ops with
  | nil => intro m feId symId; simp [runEdgeOps]
  | cons op rest ih =>
      intro m feId symId
      have step := manage_find_eq_specEdgeStep m feId symId op
      simpa [runEdgeOps, List.foldl_cons, step]
        using ih (manage_edge_prop_access_state m feId symId op).1 feId symId

/-- Claim C1: for any sequence of write/send events observed for one
(inner loop, edge-property symbol) pair, the state stored in the annotation
map under `GPS_MAP_EDGE_PROP_ACCESS` after processing the sequence equals the
left fold of the spec's transition table over that sequence, starting from no
prior state. -/
theorem C1_state_machine_fold (feId symId : Nat) (ops : List EdgeOp) :
    mapFind (runEdgeOps [] feId symId ops) (feId, symId)
      = ops.foldl specEdgeStep none := by
  simpa [mapFind] using runEdgeOps_find ops [] feId symId

/-- Symbol type classification (`ast_typedecl`).  Modelled from the spec: the
type model lives in frontend headers outside the sources; the spec's data
model lists node, edge, edge-compatible and scalar classifications. -/
inductive GmType where
  | nodeTy
  | edgeTy
  | nodeIterTy
  | edgeIterTy
  | scalarTy
  deriving DecidableEq, Repr

/-- Embedding of `gm_typedecl::is_edge()`.  Modelled from the spec. -/
def GmType.is_edge : GmType → Bool
  | .edgeTy => true
  | _ => false

/-- Embedding of `gm_typedecl::is_edge_compatible()` (edge or edge iterator).
Modelled from the spec. -/
def GmType.is_edge_compatible : GmType → Bool
  | .edgeTy => true
  | .edgeIterTy => true
  | _ => false

/-- Values of the externally computed `GPS_INT_EXPR_SCOPE` classification of an
expression.  Modelled from the spec: the classification is produced by an
earlier pass outside these sources; only membership in
{new-scope-inner, new-scope-random} is inspected here. -/
inductive ScopeClass where
  | GPS_NEW_SCOPE_IN
  | GPS_NEW_SCOPE_RANDOM
  | GPS_NEW_SCOPE_OUT
  | GPS_NEW_SCOPE_NONE
  deriving DecidableEq, Repr

/-- A symbol-table entry (`gm_symtab_entry`): identity, original source name
and declared type.  Modelled from the spec's symbol model. -/
structure SymtabEntry where
  id : Nat
  orgname : String
  typeOf : GmType
  deriving DecidableEq, Repr

/-- An `ast_id`: a name occurrence with source position and resolved symbol.
Modelled from the spec's AST node model. -/
structure AstId where
  line : Nat
  col : Nat
  sym : SymtabEntry
  deriving DecidableEq, Repr

/-- An `ast_field`: a two-part access `first.second` with its own source
position and the source type of the access (`getSourceTypeInfo`).  Modelled
from the spec's AST node model. -/
structure AstField where
  line : Nat
  col : Nat
  first : AstId
  second : AstId
  sourceType : GmType
  deriving DecidableEq, Repr

mutual
/-- Expressions (`ast_expr`): constants, identifier reads, field reads, binary
operations and builtin calls, each carrying its externally assigned scope
classification.  Modelled from the spec's AST node model. -/
inductive AstExpr where
  | econst (scope : ScopeClass)
  | eid (scope : ScopeClass) (var : AstId)
  | efield (scope : ScopeClass) (fld : AstField)
  | ebiop (scope : ScopeClass) (left right : AstExpr)
  | ebuiltin (scope : ScopeClass) (driver : AstId) (methodId : Nat) (args : AstExprList)
/-- Argument lists of builtin calls (kept as a mutual inductive so that all
recursions over expressions are structural). -/
inductive AstExprList where
  | nil
  | cons (e : AstExpr) (rest : AstExprList)
end

/-- The scope classification attached to an expression
(`e->find_info_bool(GPS_INT_EXPR_SCOPE)` reads this annotation). -/
def AstExpr.scopeOf : AstExpr → ScopeClass
  | .econst sc => sc
  | .eid sc _ => sc
  | .efield sc _ => sc
  | .ebiop sc _ _ => sc
  | .ebuiltin sc _ _ _ => sc

mutual
/-- Statements (`ast_sent`): foreach (with its `GPS_FLAG_IS_INNER_LOOP`
classification, iterator, declared symbols and body), assignments with a
field or scalar target, if, while, and sentence blocks with their declared
symbols.  Each statement carries a node identity standing for its address.
Modelled from the spec's AST node model. -/
inductive AstSent where
  | sforeach (sid : Nat) (isInnerLoop : Bool) (iter : AstId)
      (decls : List SymtabEntry) (body : AstSentList)
  | sassignField (sid : Nat) (lhs : AstField) (rhs : AstExpr)
  | sassignScala (sid : Nat) (lhs : AstId) (rhs : AstExpr)
  | sif (sid : Nat) (cond : AstExpr) (thenPart elsePart : AstSentList)
  | swhile (sid : Nat) (cond : AstExpr) (body : AstSentList)
  | sblock (sid : Nat) (decls : List SymtabEntry) (body : AstSentList)
/-- Statement sequences (kept as a mutual inductive so that all recursions
over statements are structural). -/
inductive AstSentList where
  | nil
  | cons (s : AstSent) (rest : AstSentList)
end

/-- Node identity of a statement, standing for the C++ node address. -/
def AstSent.sentId : AstSent → Nat
  | .sforeach sid _ _ _ _ => sid
  | .sassignField sid _ _ => sid
  | .sassignScala sid _ _ => sid
  | .sif sid _ _ _ => sid
  | .swhile sid _ _ => sid
  | .sblock sid _ _ => sid

/-- The node-kind test of the conditional-write walk:
`AST_WHILE || AST_IF || AST_FOREACH`. -/
def isCondKind : AstSent → Bool
  | .swhile _ _ _ => true
  | .sif _ _ _ _ => true
  | .sforeach _ _ _ _ _ => true
  | _ => false

/-- Diagnostic kinds issued by this pass (`gm_error.h` constants). -/
inductive GmErrorKind where
  | GM_ERROR_GPS_EDGE_WRITE_CONDITIONAL
  | GM_ERROR_GPS_EDGE_WRITE_RHS
  | GM_ERROR_GPS_EDGE_READ_RANDOM
  | GM_ERROR_GPS_EDGE_SEND_VERSIONS
  deriving DecidableEq, Repr

/-- One reported diagnostic: kind, source position, and (where the source
passes one) the offending symbol's original name. -/
structure Diagnostic where
  kind : GmErrorKind
  line : Nat
  col : Nat
  symName : Option String
  deriving DecidableEq, Repr

/-- The analyzer's state: the annotation-store entries written by the pass
(`GPS_MAP_EDGE_PROP_ACCESS`, `GPS_FLAG_EDGE_DEFINED_INNER`,
`GPS_FLAG_EDGE_DEFINING_INNER`, `GPS_LIST_EDGE_PROP_WRITE`,
`GPS_FLAG_EDGE_DEFINING_WRITE`), the visitor fields of
`gps_check_edge_value_t` (`inner_iter`, `inner_loop`, `target_is_edge_prop`,
`_error`), and the diagnostics recorded through `gm_backend_error`.  Boolean
node/symbol flags are represented by the list of ids they are set on. -/
structure CheckerState where
  accessMap : AccessMap
  edgeDefinedInner : List Nat
  edgeDefiningInner : List Nat
  edgePropWrite : List (Nat × Nat)
  edgeDefiningWrite : List Nat
  inner_iter : Option Nat
  inner_loop : Option Nat
  target_is_edge_prop : Bool
  _error : Bool
  diags : List Diagnostic
  deriving DecidableEq, Repr

/-- Embedding of a `gm_backend_error(...)` call immediately followed by
`set_error(true)` (the two always occur together in the pass). -/
def reportError (st : CheckerState) (k : GmErrorKind) (line col : Nat)
    (name : Option String) : CheckerState :=
  { st with diags := st.diags ++ [⟨k, line, col, name⟩], _error := true }

/-- Builtin-method id of the iterator-to-edge conversion
(`GM_BLTIN_NODE_TO_EDGE`).  Modelled from the spec: `gm_builtin.h` is not in
the sources; only equality with itself is ever tested. -/
def GM_BLTIN_NODE_TO_EDGE : Nat := 621

/-- Embedding of `gps_check_edge_value_t::apply(gm_symtab_entry*, int)`. -/
def gps_apply_symtab (st : CheckerState) (e : SymtabEntry) : CheckerState × Bool :=
  match st.inner_loop with
  | some feId =>
      if e.typeOf.is_edge then
        ({ st with
            edgeDefinedInner := e.id :: st.edgeDefinedInner,
            edgeDefiningInner := feId :: st.edgeDefiningInner }, true)
      else (st, true)
  | none => (st, true)

/-- Embedding of the `while (true)` parent walk in
`gps_check_edge_value_t::apply(ast_sent*)` that decides whether an
edge-property write is conditional.  `anc` is the chain of parent links
starting at the assignment's direct parent; the C++ loop dereferences past
the root (after `assert(parent != NULL)`) when the inner loop is not among
the ancestors, which is modelled as returning `false` at the end of the
chain. -/
def check_conditional (il : Option Nat) : List AstSent → Bool
  | [] => false
  | parent :: rest =>
      if some parent.sentId = il then false
      else if isCondKind parent then true
      else check_conditional il rest

/-- Embedding of `gps_check_edge_value_t::apply(ast_sent*)`.  The C++ code
reads parent links from the node; here the ancestor chain `anc` (nearest
parent first) is passed alongside.  `inner_loop->add_info_list_element` and
`manage_edge_prop_access_state(inner_loop, ...)` dereference `inner_loop`,
which the source asserts to be non-null on that path; the embedding reads the
stored id with a default that theorems never rely on. -/
def gps_apply_sent (st : CheckerState) (anc : List AstSent) (s : AstSent) :
    CheckerState × Bool :=
  match s with
  | .sforeach sid isInner iter _ _ =>
      if isInner then
        ({ st with inner_iter := some iter.sym.id, inner_loop := some sid }, true)
      else (st, true)
  | .sassignField sid lhs _ =>
      if lhs.first.sym.typeOf.is_edge_compatible then
        if st.edgeDefinedInner.contains lhs.first.sym.id then
          -- check if conditional write
          let conditional := check_conditional st.inner_loop anc
          let st1 :=
            if conditional then
              reportError st .GM_ERROR_GPS_EDGE_WRITE_CONDITIONAL lhs.line lhs.col none
            else st
          let st2 := { st1 with target_is_edge_prop := true }
          -- add write symbol
          let feId := st2.inner_loop.getD 0
          let st3 := { st2 with edgePropWrite := st2.edgePropWrite ++ [(feId, sid)] }
          let res := manage_edge_prop_access_state st3.accessMap feId lhs.second.sym.id
            EdgeOp.WRITING
          ({ st3 with accessMap := res.1 }, true)
        else
          -- (commented-out EDGE_WRITE_RANDOM report in the source: no effect)
          (st, true)
      else (st, true)
  | .sassignScala sid lhs rhs =>
      if lhs.sym.typeOf.is_edge then
        if st.edgeDefinedInner.contains lhs.sym.id then
          -- check rhs is to-edge
          match rhs with
          | .ebuiltin _ _ methodId _ =>
              if methodId = GM_BLTIN_NODE_TO_EDGE then
                ({ st with edgeDefiningWrite := sid :: st.edgeDefiningWrite }, true)
              else (st, true)
          | _ => (st, true)
        else (st, true)
      else (st, true)
  | _ => (st, true)

/-- Embedding of `gps_check_edge_value_t::apply(ast_expr*)`: the
inner-scoped-RHS check (case 2) followed by the random-read (case 1) and
two-versions (case 3) checks. -/
def gps_apply_expr (st : CheckerState) (e : AstExpr) : CheckerState × Bool :=
  -- checking of (case 2)
  let st0 :=
    if st.target_is_edge_prop then
      if (e.scopeOf == ScopeClass.GPS_NEW_SCOPE_IN)
          || (e.scopeOf == ScopeClass.GPS_NEW_SCOPE_RANDOM) then
        match e with
        | .efield _ f =>
            reportError st .GM_ERROR_GPS_EDGE_WRITE_RHS f.line f.col (some f.first.sym.orgname)
        | .eid _ i =>
            reportError st .GM_ERROR_GPS_EDGE_WRITE_RHS i.line i.col (some i.sym.orgname)
        | _ => st
      else st
    else st
  match e with
  | .efield _ f =>
      if f.sourceType.is_edge_compatible then
        if !(st0.edgeDefinedInner.contains f.first.sym.id) then
          -- check if random reading (case 1)
          (reportError st0 .GM_ERROR_GPS_EDGE_READ_RANDOM f.line f.col none, true)
        else
          -- (case 3)
          let feId := st0.inner_loop.getD 0
          let res := manage_edge_prop_access_state st0.accessMap feId f.second.sym.id
            EdgeOp.SENDING
          let st1 := { st0 with accessMap := res.1 }
          if res.2 then
            (reportError st1 .GM_ERROR_GPS_EDGE_SEND_VERSIONS f.line f.col
              (some f.first.sym.orgname), true)
          else (st1, true)
      else (st0, true)
  | _ => (st0, true)

/-- Embedding of `gps_check_edge_value_t::apply2(ast_sent*)` (the post-order
callback); pointer comparison with the stored inner loop becomes comparison
of node identities. -/
def gps_apply2 (st : CheckerState) (s : AstSent) : CheckerState × Bool :=
  match s with
  | .sforeach sid _ _ _ _ =>
      if st.inner_loop = some sid then
        ({ st with inner_loop := none, inner_iter := none }, true)
      else (st, true)
  | .sassignField _ _ _ => ({ st with target_is_edge_prop := false }, true)
  | .sassignScala _ _ _ => ({ st with target_is_edge_prop := false }, true)
  | _ => (st, true)

/-- Visiting the symbol-table entries declared by one scope.  Modelled from
the spec: the engine invokes the symbol callback for every entry at its
declaration point. -/
def applySymtabs (st : CheckerState) (decls : List SymtabEntry) : CheckerState :=
  decls.foldl (fun acc e => (gps_apply_symtab acc e).1) st

mutual
/-- Pre-order walk over an expression, invoking the expression callback on a
node before its sub-expressions.  Modelled from the spec's traversal-engine
contract. -/
def traverseExpr (st : CheckerState) (e : AstExpr) : CheckerState :=
  let st1 := (gps_apply_expr st e).1
  match e with
  | .ebiop _ l r => traverseExpr (traverseExpr st1 l) r
  | .ebuiltin _ _ _ args => traverseExprs st1 args
  | _ => st1
/-- Pre-order walk over an expression list. -/
def traverseExprs (st : CheckerState) (l : AstExprList) : CheckerState :=
  match l with
  | .nil => st
  | .cons e rest => traverseExprs (traverseExpr st e) rest
end

mutual
/-- One depth-first walk of a statement: statement callback pre-order, then
the scope's symbol-table entries, then children (sub-expressions and nested
statements, in source order), then the separate post-order callback `apply2`.
Modelled from the spec's traversal-engine contract (`traverse_both` with
`set_separate_post_apply(true)`); the analyzer's callbacks always return the
continue signal, so no subtree is ever skipped. -/
def traverseSent (st : CheckerState) (anc : List AstSent) (s : AstSent) : CheckerState :=
  let st1 := (gps_apply_sent st anc s).1
  let st2 :=
    match s with
    | .sforeach _ _ iter decls body =>
        traverseSents (applySymtabs ((gps_apply_symtab st1 iter.sym).1) decls)
          (s :: anc) body
    | .sassignField _ _ rhs => traverseExpr st1 rhs
    | .sassignScala _ _ rhs => traverseExpr st1 rhs
    | .sif _ cond thenPart elsePart =>
        traverseSents (traverseSents (traverseExpr st1 cond) (s :: anc) thenPart)
          (s :: anc) elsePart
    | .swhile _ cond body => traverseSents (traverseExpr st1 cond) (s :: anc) body
    | .sblock _ decls body => traverseSents (applySymtabs st1 decls) (s :: anc) body
  (gps_apply2 st2 s).1
/-- Walk of a statement sequence in source order. -/
def traverseSents (st : CheckerState) (anc : List AstSent) (l : AstSentList) :
    CheckerState :=
  match l with
  | .nil => st
  | .cons s rest => traverseSents (traverseSent st anc s) anc rest
end

/-- A procedure definition (`ast_procdef`): its body statement.  Modelled from
the spec's AST node model. -/
structure AstProcdef where
  body : AstSent

/-- The initial state of a fresh `gps_check_edge_value_t` visitor (its
constructor) over an empty annotation store. -/
def initCheckerState : CheckerState :=
  { accessMap := []
    edgeDefinedInner := []
    edgeDefiningInner := []
    edgePropWrite := []
    edgeDefiningWrite := []
    inner_iter := none
    inner_loop := none
    target_is_edge_prop := false
    _error := false
    diags := [] }

/-- Embedding of `gm_gps_opt_check_edge_value::process`: run the traversal
and derive the pass result `set_okay(!T2.is_error())`. -/
def gm_gps_opt_check_edge_value_process (p : AstProcdef) : CheckerState × Bool :=
  let T2 := traverseSent initCheckerState [] p.body
  (T2, !T2._error)

/-- The state machine flags an error exactly on a send in state `SENT_WRITE`. -/
theorem manage_error_iff (m : AccessMap) (feId symId : Nat) (op : EdgeOp) :
    (manage_edge_prop_access_state m feId symId op).2 = true ↔
      (mapFind m (feId, symId) = some .SENT_WRITE ∧ op = .SENDING) := by
  unfold manage_edge_prop_access_state
  cases h : mapFind m (feId, symId) with
  | none => cases op <;> simp [h]
  | some curr => cases curr <;> cases op <;> simp [h]

/-- In state `ERROR` the state machine is inert: the map is returned
untouched and no error is signalled, for both operations. -/
theorem manage_error_absorbs (m : AccessMap) (feId symId : Nat) (op : EdgeOp)
    (h : mapFind m (feId, symId) = some .ERROR) :
    manage_edge_prop_access_state m feId symId op = (m, false) := by
  unfold manage_edge_prop_access_state
  rw [h]

/-- Spec-side reading of the conditional-write rule: walking the parent chain
upward, some ancestor strictly between the assignment and the inner loop
(i.e. before the first occurrence of the inner loop) is an if, while or
foreach. -/
def anyCondBetween (feId : Nat) (anc : List AstSent) : Bool :=
  (anc.takeWhile (fun p => p.sentId != feId)).any isCondKind

/-- The code's early-exit parent walk computes exactly the spec-side
"some conditional ancestor strictly between" predicate. -/
theorem check_conditional_eq_anyCondBetween (feId : Nat) (anc : List AstSent) :
    check_conditional (some feId) anc = anyCondBetween feId anc := by
  induction anc with
  | nil => rfl
  | cons p rest ih =>
      by_cases h : p.sentId = feId
      · simp [check_conditional, anyCondBetween, h]
      · by_cases hc : isCondKind p
        · simp [check_conditional, anyCondBetween, h, hc]
        · simp [check_conditional, anyCondBetween, h, hc] at ih ⊢
          exact ih

/-- Claim C9: a write event can never be the error-triggering event of the
state machine: for every state of the map, `manage_edge_prop_access_state`
invoked with the `WRITING` operation returns `false` (no error), so the
assertion `assert(b == false)` on the assignment handler's write path always
holds. -/
theorem C9_write_never_error (m : AccessMap) (feId symId : Nat) :
    (manage_edge_prop_access_state m feId symId EdgeOp.WRITING).2 = false := by
  unfold manage_edge_prop_access_state
  cases h : mapFind m (feId, symId) with
  | none => simp
  | some curr => cases curr <;> simp

/-- Claim C10: an assignment whose target is an edge property whose base
symbol is not marked `definedInInnerLoop` is silently accepted: the statement
callback returns the state completely unchanged (no diagnostic, no
state-machine event, no `GPS_LIST_EDGE_PROP_WRITE` entry, and the
`target_is_edge_prop` flag is not activated), together with the continue
signal. -/
theorem C10_unmarked_edge_write_ignored (st : CheckerState) (anc : List AstSent)
    (sid : Nat) (lhs : AstField) (rhs : AstExpr)
    (hcompat : lhs.first.sym.typeOf.is_edge_compatible = true)
    (hunmarked : st.edgeDefinedInner.contains lhs.first.sym.id = false) :
    gps_apply_sent st anc (.sassignField sid lhs rhs) = (st, true) := by
  simp at hunmarked
  simp [gps_apply_sent, hcompat, hunmarked]

/-- Claim C3: for an assignment whose target is an edge property with a
`definedInInnerLoop` base, the pass reports `EDGE_WRITE_CONDITIONAL` at the
assignment target's location if and only if some ancestor strictly between
the assignment and the current inner loop is an if, while or foreach; the
violation is non-fatal: the handler still activates the RHS window, records
the write in `GPS_LIST_EDGE_PROP_WRITE`, feeds the write event to the state
machine, and returns the continue signal. -/
theorem C3_write_conditional (st : CheckerState) (anc : List AstSent)
    (sid feId : Nat) (lhs : AstField) (rhs : AstExpr)
    (hcompat : lhs.first.sym.typeOf.is_edge_compatible = true)
    (hmarked : st.edgeDefinedInner.contains lhs.first.sym.id = true)
    (hloop : st.inner_loop = some feId) :
    ((gps_apply_sent st anc (.sassignField sid lhs rhs)).1.diags.filter
        (fun d => d.kind == .GM_ERROR_GPS_EDGE_WRITE_CONDITIONAL)
      = st.diags.filter (fun d => d.kind == .GM_ERROR_GPS_EDGE_WRITE_CONDITIONAL)
        ++ (if anyCondBetween feId anc then
              [⟨.GM_ERROR_GPS_EDGE_WRITE_CONDITIONAL, lhs.line, lhs.col, none⟩]
            else []))
    ∧ (gps_apply_sent st anc (.sassignField sid lhs rhs)).1.target_is_edge_prop = true
    ∧ (gps_apply_sent st anc (.sassignField sid lhs rhs)).1.edgePropWrite
        = st.edgePropWrite ++ [(feId, sid)]
    ∧ (gps_apply_sent st anc (.sassignField sid lhs rhs)).1.accessMap
        = (manage_edge_prop_access_state st.accessMap feId lhs.second.sym.id
            EdgeOp.WRITING).1
    ∧ (gps_apply_sent st anc (.sassignField sid lhs rhs)).2 = true := by
  have hcc := check_conditional_eq_anyCondBetween feId anc
  simp at hmarked
  by_cases hcond : anyCondBetween feId anc = true
  · simp [gps_apply_sent, hcompat, hmarked, hloop, hcc, hcond, reportError,
      List.filter_append]
  · simp at hcond
    simp [gps_apply_sent, hcompat, hmarked, hloop, hcc, hcond, reportError,
      List.filter_append]

/-- Claim C4: reading an edge property (a field access with edge-compatible
source type, visited as an expression) through a base symbol lacking the
`definedInInnerLoop` mark reports `EDGE_READ_RANDOM` at the field access's
location (with no symbol name), records no state-machine event (the access
map is untouched), and returns the continue signal — for every analyzer
state, i.e. regardless of nesting depth or surrounding conditionals. -/
theorem C4_read_random (st : CheckerState) (sc : ScopeClass) (f : AstField)
    (hsrc : f.sourceType.is_edge_compatible = true)
    (hunmarked : st.edgeDefinedInner.contains f.first.sym.id = false) :
    ((gps_apply_expr st (.efield sc f)).1.accessMap = st.accessMap)
    ∧ ((gps_apply_expr st (.efield sc f)).1.diags.filter
          (fun d => d.kind == .GM_ERROR_GPS_EDGE_READ_RANDOM)
        = st.diags.filter (fun d => d.kind == .GM_ERROR_GPS_EDGE_READ_RANDOM)
          ++ [⟨.GM_ERROR_GPS_EDGE_READ_RANDOM, f.line, f.col, none⟩])
    ∧ (gps_apply_expr st (.efield sc f)).2 = true := by
  simp at hunmarked
  unfold gps_apply_expr
  by_cases htgt : st.target_is_edge_prop = true <;> cases sc <;>
    simp [htgt, hsrc, hunmarked, reportError, List.filter_append, AstExpr.scopeOf]

/-- Claim C2: first conjunct — on a send event (field read with
edge-compatible source through a marked base, with an active inner loop), the
`EDGE_SEND_TWO_VERSIONS` diagnostic is appended, at the triggering field
access's location and naming the access's base symbol, exactly when the
pair's stored state is `SENT_WRITE`, and the access map advances by the
state-machine step; second conjunct — once a pair's state is `ERROR`, every
further write or send event leaves the map unchanged and signals no error
(hence produces no additional diagnostic). -/
theorem C2_send_two_versions :
    (∀ (st : CheckerState) (sc : ScopeClass) (f : AstField) (feId : Nat),
      f.sourceType.is_edge_compatible = true →
      st.edgeDefinedInner.contains f.first.sym.id = true →
      st.inner_loop = some feId →
      ((gps_apply_expr st (.efield sc f)).1.diags.filter
          (fun d => d.kind == .GM_ERROR_GPS_EDGE_SEND_VERSIONS)
        = st.diags.filter (fun d => d.kind == .GM_ERROR_GPS_EDGE_SEND_VERSIONS)
          ++ (if mapFind st.accessMap (feId, f.second.sym.id) = some .SENT_WRITE then
                [⟨.GM_ERROR_GPS_EDGE_SEND_VERSIONS, f.line, f.col,
                  some f.first.sym.orgname⟩]
              else []))
      ∧ (gps_apply_expr st (.efield sc f)).1.accessMap
          = (manage_edge_prop_access_state st.accessMap feId f.second.sym.id
              EdgeOp.SENDING).1)
    ∧ (∀ (m : AccessMap) (feId symId : Nat) (op : EdgeOp),
        mapFind m (feId, symId) = some .ERROR →
        manage_edge_prop_access_state m feId symId op = (m, false)) := by
  constructor
  · intro st sc f feId hsrc hmarked hloop
    simp at hmarked
    have herr := manage_error_iff st.accessMap feId f.second.sym.id EdgeOp.SENDING
    unfold gps_apply_expr
    by_cases hprior : mapFind st.accessMap (feId, f.second.sym.id) = some .SENT_WRITE
    · have hb : (manage_edge_prop_access_state st.accessMap feId f.second.sym.id
          EdgeOp.SENDING).2 = true := herr.mpr ⟨hprior, rfl⟩
      by_cases htgt : st.target_is_edge_prop = true <;> cases sc <;>
        simp [htgt, hsrc, hmarked, hloop, hprior, hb, reportError,
          List.filter_append, AstExpr.scopeOf]
    · have hb : (manage_edge_prop_access_state st.accessMap feId f.second.sym.id
          EdgeOp.SENDING).2 = false := by
        cases hb2 : (manage_edge_prop_access_state st.accessMap feId f.second.sym.id
            EdgeOp.SENDING).2 with
        | false => rfl
        | true => exact absurd (herr.mp hb2).1 hprior
      by_cases htgt : st.target_is_edge_prop = true <;> cases sc <;>
        simp [htgt, hsrc, hmarked, hloop, hprior, hb, reportError,
          List.filter_append, AstExpr.scopeOf]
  · intro m feId symId op h
    exact manage_error_absorbs m feId symId op h

/-- Claim C5: while the `target_is_edge_prop` window is open, every visited
sub-expression classified new-scope-inner or new-scope-random that is a field
access or a bare identifier reports `EDGE_WRITE_RHS` at the sub-expression's
location naming its base symbol; with the window closed, no expression visit
ever reports `EDGE_WRITE_RHS`; the window is opened at the pre-order visit of
an assignment whose target is an edge property with a marked base and closed
at any assignment's post-order visit. -/
theorem C5_write_rhs :
    (∀ (st : CheckerState) (sc : ScopeClass) (f : AstField),
      st.target_is_edge_prop = true →
      (sc = .GPS_NEW_SCOPE_IN ∨ sc = .GPS_NEW_SCOPE_RANDOM) →
      (gps_apply_expr st (.efield sc f)).1.diags.filter
          (fun d => d.kind == .GM_ERROR_GPS_EDGE_WRITE_RHS)
        = st.diags.filter (fun d => d.kind == .GM_ERROR_GPS_EDGE_WRITE_RHS)
          ++ [⟨.GM_ERROR_GPS_EDGE_WRITE_RHS, f.line, f.col, some f.first.sym.orgname⟩])
    ∧ (∀ (st : CheckerState) (sc : ScopeClass) (i : AstId),
      st.target_is_edge_prop = true →
      (sc = .GPS_NEW_SCOPE_IN ∨ sc = .GPS_NEW_SCOPE_RANDOM) →
      (gps_apply_expr st (.eid sc i)).1.diags.filter
          (fun d => d.kind == .GM_ERROR_GPS_EDGE_WRITE_RHS)
        = st.diags.filter (fun d => d.kind == .GM_ERROR_GPS_EDGE_WRITE_RHS)
          ++ [⟨.GM_ERROR_GPS_EDGE_WRITE_RHS, i.line, i.col, some i.sym.orgname⟩])
    ∧ (∀ (st : CheckerState) (e : AstExpr),
      st.target_is_edge_prop = false →
      (gps_apply_expr st e).1.diags.filter
          (fun d => d.kind == .GM_ERROR_GPS_EDGE_WRITE_RHS)
        = st.diags.filter (fun d => d.kind == .GM_ERROR_GPS_EDGE_WRITE_RHS))
    ∧ (∀ (st : CheckerState) (anc : List AstSent) (sid : Nat) (lhs : AstField)
        (rhs : AstExpr),
      lhs.first.sym.typeOf.is_edge_compatible = true →
      st.edgeDefinedInner.contains lhs.first.sym.id = true →
      (gps_apply_sent st anc (.sassignField sid lhs rhs)).1.target_is_edge_prop = true)
    ∧ (∀ (st : CheckerState) (sid : Nat) (lhs : AstField) (rhs : AstExpr),
      (gps_apply2 st (.sassignField sid lhs rhs)).1.target_is_edge_prop = false)
    ∧ (∀ (st : CheckerState) (sid : Nat) (lhs : AstId) (rhs : AstExpr),
      (gps_apply2 st (.sassignScala sid lhs rhs)).1.target_is_edge_prop = false) := by
  refine ⟨?_, ?_, ?_, ?_, ?_, ?_⟩
  · intro st sc f htgt hsc
    unfold gps_apply_expr
    rcases hsc with h | h <;> subst h <;>
      by_cases hsrc : f.sourceType.is_edge_compatible = true <;>
      by_cases hm : f.first.sym.id ∈ st.edgeDefinedInner <;>
      simp [htgt, hsrc, hm, reportError, List.filter_append, AstExpr.scopeOf] <;>
      (try (split <;> simp [List.filter_append]))
  · intro st sc i htgt hsc
    unfold gps_apply_expr
    rcases hsc with h | h <;> subst h <;>
      simp [htgt, reportError, List.filter_append, AstExpr.scopeOf]
  · intro st e htgt
    unfold gps_apply_expr
    cases e with
    | efield sc f =>
        by_cases hsrc : f.sourceType.is_edge_compatible = true <;>
        by_cases hm : f.first.sym.id ∈ st.edgeDefinedInner <;>
        by_cases hb : (manage_edge_prop_access_state st.accessMap
          (st.inner_loop.getD 0) f.second.sym.id EdgeOp.SENDING).2 = true <;>
        simp [htgt, hsrc, hm, hb, reportError, List.filter_append]
    | econst sc => simp [htgt]
    | eid sc i => simp [htgt]
    | ebiop sc l r => simp [htgt]
    | ebuiltin sc d mid args => simp [htgt]
  · intro st anc sid lhs rhs hcompat hmarked
    simp at hmarked
    by_cases hcond : check_conditional st.inner_loop anc = true <;>
      simp [gps_apply_sent, hcompat, hmarked, hcond, reportError]
  · intro st sid lhs rhs
    simp [gps_apply2]
  · intro st sid lhs rhs
    simp [gps_apply2]

/-- Tests whether a statement is a foreach carrying the
`GPS_FLAG_IS_INNER_LOOP` classification. -/
def isInnerMarkedForeach : AstSent → Bool
  | .sforeach _ true _ _ _ => true
  | _ => false

/-- The statement callback only writes the inner-loop tracking fields when
visiting an inner-marked foreach. -/
theorem gps_apply_sent_preserves_inner (st : CheckerState) (anc : List AstSent)
    (s : AstSent) (hs : isInnerMarkedForeach s = false) :
    (gps_apply_sent st anc s).1.inner_loop = st.inner_loop
    ∧ (gps_apply_sent st anc s).1.inner_iter = st.inner_iter := by
  cases s with
  | sforeach sid b iter decls body =>
      cases b with
      | true => simp [isInnerMarkedForeach] at hs
      | false => exact ⟨rfl, rfl⟩
  | sassignField sid lhs rhs =>
      refine ⟨?_, ?_⟩ <;>
        (simp only [gps_apply_sent]; repeat' split) <;> simp [reportError]
  | sassignScala sid lhs rhs =>
      refine ⟨?_, ?_⟩ <;>
        (simp only [gps_apply_sent]; repeat' split) <;> simp [reportError]
  | sif sid cond t e => exact ⟨rfl, rfl⟩
  | swhile sid cond body => exact ⟨rfl, rfl⟩
  | sblock sid decls body => exact ⟨rfl, rfl⟩

/-- The expression callback never writes the inner-loop tracking fields. -/
theorem gps_apply_expr_preserves_inner (st : CheckerState) (e : AstExpr) :
    (gps_apply_expr st e).1.inner_loop = st.inner_loop
    ∧ (gps_apply_expr st e).1.inner_iter = st.inner_iter := by
  cases e <;>
    refine ⟨?_, ?_⟩ <;>
    (simp only [gps_apply_expr]; repeat' split) <;>
    simp [reportError]

/-- The symbol callback never writes the inner-loop tracking fields. -/
theorem gps_apply_symtab_preserves_inner (st : CheckerState) (e : SymtabEntry) :
    (gps_apply_symtab st e).1.inner_loop = st.inner_loop
    ∧ (gps_apply_symtab st e).1.inner_iter = st.inner_iter := by
  refine ⟨?_, ?_⟩ <;>
    (simp only [gps_apply_symtab]; repeat' split) <;> simp

/-- The node identity of a statement when it is a foreach. -/
def foreachIdOf : AstSent → Option Nat
  | .sforeach sid _ _ _ _ => some sid
  | _ => none

/-- Claim C8: the current-inner-loop and current-inner-iterator fields are
single-valued state: the pre-order statement callback sets them exactly on a
foreach marked `isInnerLoop`, leaves them untouched on every other statement,
and the post-order callback clears them exactly when visiting a foreach whose
identity equals the stored one, leaving them untouched otherwise; expression
and symbol callbacks never modify them. -/
theorem C8_inner_loop_lifecycle :
    (∀ (st : CheckerState) (anc : List AstSent) (sid : Nat) (iter : AstId)
        (decls : List SymtabEntry) (body : AstSentList),
      (gps_apply_sent st anc (.sforeach sid true iter decls body)).1.inner_loop = some sid
      ∧ (gps_apply_sent st anc (.sforeach sid true iter decls body)).1.inner_iter
          = some iter.sym.id)
    ∧ (∀ (st : CheckerState) (anc : List AstSent) (s : AstSent),
      isInnerMarkedForeach s = false →
      (gps_apply_sent st anc s).1.inner_loop = st.inner_loop
      ∧ (gps_apply_sent st anc s).1.inner_iter = st.inner_iter)
    ∧ (∀ (st : CheckerState) (sid : Nat) (b : Bool) (iter : AstId)
        (decls : List SymtabEntry) (body : AstSentList),
      st.inner_loop = some sid →
      (gps_apply2 st (.sforeach sid b iter decls body)).1.inner_loop = none
      ∧ (gps_apply2 st (.sforeach sid b iter decls body)).1.inner_iter = none)
    ∧ (∀ (st : CheckerState) (s : AstSent),
      foreachIdOf s = none →
      (gps_apply2 st s).1.inner_loop = st.inner_loop
      ∧ (gps_apply2 st s).1.inner_iter = st.inner_iter)
    ∧ (∀ (st : CheckerState) (sid : Nat) (b : Bool) (iter : AstId)
        (decls : List SymtabEntry) (body : AstSentList),
      st.inner_loop ≠ some sid →
      (gps_apply2 st (.sforeach sid b iter decls body)).1.inner_loop = st.inner_loop
      ∧ (gps_apply2 st (.sforeach sid b iter decls body)).1.inner_iter = st.inner_iter)
    ∧ (∀ (st : CheckerState) (e : AstExpr),
      (gps_apply_expr st e).1.inner_loop = st.inner_loop
      ∧ (gps_apply_expr st e).1.inner_iter = st.inner_iter)
    ∧ (∀ (st : CheckerState) (e : SymtabEntry),
      (gps_apply_symtab st e).1.inner_loop = st.inner_loop
      ∧ (gps_apply_symtab st e).1.inner_iter = st.inner_iter) := by
  refine ⟨?_, ?_, ?_, ?_, ?_, ?_, ?_⟩
  · intro st anc sid iter decls body
    constructor <;> simp [gps_apply_sent]
  · intro st anc s hs
    exact gps_apply_sent_preserves_inner st anc s hs
  · intro st sid b iter decls body h
    constructor <;> simp [gps_apply2, h]
  · intro st s h
    cases s with
    | sforeach sid b iter decls body => simp [foreachIdOf] at h
    | sassignField sid lhs rhs => constructor <;> simp [gps_apply2]
    | sassignScala sid lhs rhs => constructor <;> simp [gps_apply2]
    | sif sid cond t e => constructor <;> simp [gps_apply2]
    | swhile sid cond body => constructor <;> simp [gps_apply2]
    | sblock sid decls body => constructor <;> simp [gps_apply2]
  · intro st sid b iter decls body h
    constructor <;> simp [gps_apply2, h]
  · intro st e
    exact gps_apply_expr_preserves_inner st e
  · intro st e
    exact gps_apply_symtab_preserves_inner st e

/-- The pass's error flag tracks the presence of recorded diagnostics. -/
def ErrorInv (st : CheckerState) : Prop := st._error = true ↔ st.diags ≠ []

theorem errorInv_initCheckerState : ErrorInv initCheckerState := by
  simp [ErrorInv, initCheckerState]

theorem errorInv_gps_apply_symtab (st : CheckerState) (e : SymtabEntry)
    (h : ErrorInv st) : ErrorInv (gps_apply_symtab st e).1 := by
  simp only [gps_apply_symtab]
  repeat' split
  all_goals simpa [ErrorInv] using h

theorem errorInv_applySymtabs (st : CheckerState) (decls : List SymtabEntry)
    (h : ErrorInv st) : ErrorInv (applySymtabs st decls) := by
  induction decls generalizing st with
  | nil => simpa [applySymtabs] using h
  | cons d rest ih =>
      simpa [applySymtabs] using ih _ (errorInv_gps_apply_symtab st d h)

theorem errorInv_gps_apply_sent (st : CheckerState) (anc : List AstSent) (s : AstSent)
    (h : ErrorInv st) : ErrorInv (gps_apply_sent st anc s).1 := by
  cases s <;> (simp only [gps_apply_sent]; repeat' split) <;>
    simp_all [ErrorInv, reportError]

theorem errorInv_gps_apply_expr (st : CheckerState) (e : AstExpr)
    (h : ErrorInv st) : ErrorInv (gps_apply_expr st e).1 := by
  cases e <;> (simp only [gps_apply_expr]; repeat' split) <;>
    simp_all [ErrorInv, reportError]

theorem errorInv_gps_apply2 (st : CheckerState) (s : AstSent)
    (h : ErrorInv st) : ErrorInv (gps_apply2 st s).1 := by
  cases s <;> (simp only [gps_apply2]; repeat' split) <;>
    simp_all [ErrorInv]

mutual
theorem errorInv_traverseExpr : ∀ (e : AstExpr) (st : CheckerState),
    ErrorInv st → ErrorInv (traverseExpr st e)
  | .econst sc, st, h => by
      simpa [traverseExpr] using errorInv_gps_apply_expr st (.econst sc) h
  | .eid sc i, st, h => by
      simpa [traverseExpr] using errorInv_gps_apply_expr st (.eid sc i) h
  | .efield sc f, st, h => by
      simpa [traverseExpr] using errorInv_gps_apply_expr st (.efield sc f) h
  | .ebiop sc l r, st, h => by
      simp only [traverseExpr]
      exact errorInv_traverseExpr r _ (errorInv_traverseExpr l _
        (errorInv_gps_apply_expr st (.ebiop sc l r) h))
  | .ebuiltin sc d mid args, st, h => by
      simp only [traverseExpr]
      exact errorInv_traverseExprs args _
        (errorInv_gps_apply_expr st (.ebuiltin sc d mid args) h)
theorem errorInv_traverseExprs : ∀ (l : AstExprList) (st : CheckerState),
    ErrorInv st → ErrorInv (traverseExprs st l)
  | .nil, st, h => by simpa [traverseExprs] using h
  | .cons e rest, st, h => by
      simp only [traverseExprs]
      exact errorInv_traverseExprs rest _ (errorInv_traverseExpr e st h)
end

mutual
theorem errorInv_traverseSent : ∀ (s : AstSent) (st : CheckerState) (anc : List AstSent),
    ErrorInv st → ErrorInv (traverseSent st anc s)
  | .sforeach sid b iter decls body, st, anc, h => by
      simp only [traverseSent]
      exact errorInv_gps_apply2 _ _ (errorInv_traverseSents body _ _
        (errorInv_applySymtabs _ decls (errorInv_gps_apply_symtab _ _
          (errorInv_gps_apply_sent st anc _ h))))
  | .sassignField sid lhs rhs, st, anc, h => by
      simp only [traverseSent]
      exact errorInv_gps_apply2 _ _ (errorInv_traverseExpr rhs _
        (errorInv_gps_apply_sent st anc _ h))
  | .sassignScala sid lhs rhs, st, anc, h => by
      simp only [traverseSent]
      exact errorInv_gps_apply2 _ _ (errorInv_traverseExpr rhs _
        (errorInv_gps_apply_sent st anc _ h))
  | .sif sid cond t e, st, anc, h => by
      simp only [traverseSent]
      exact errorInv_gps_apply2 _ _ (errorInv_traverseSents e _ _
        (errorInv_traverseSents t _ _ (errorInv_traverseExpr cond _
          (errorInv_gps_apply_sent st anc _ h))))
  | .swhile sid cond body, st, anc, h => by
      simp only [traverseSent]
      exact errorInv_gps_apply2 _ _ (errorInv_traverseSents body _ _
        (errorInv_traverseExpr cond _ (errorInv_gps_apply_sent st anc _ h)))
  | .sblock sid decls body, st, anc, h => by
      simp only [traverseSent]
      exact errorInv_gps_apply2 _ _ (errorInv_traverseSents body _ _
        (errorInv_applySymtabs _ decls (errorInv_gps_apply_sent st anc _ h)))
theorem errorInv_traverseSents : ∀ (l : AstSentList) (st : CheckerState)
    (anc : List AstSent), ErrorInv st → ErrorInv (traverseSents st anc l)
  | .nil, st, anc, h => by simpa [traverseSents] using h
  | .cons s rest, st, anc, h => by
      simp only [traverseSents]
      exact errorInv_traverseSents rest _ anc (errorInv_traverseSent s st anc h)
end

/-- Claim C7: the overall pass result is ok exactly when no diagnostic was
recorded during the traversal, and the pass never stops early: every
statement, expression, post-order and symbol callback returns the continue
signal. -/
theorem C7_pass_result :
    (∀ p : AstProcdef,
      (gm_gps_opt_check_edge_value_process p).2 = true
        ↔ (gm_gps_opt_check_edge_value_process p).1.diags = [])
    ∧ (∀ (st : CheckerState) (anc : List AstSent) (s : AstSent),
        (gps_apply_sent st anc s).2 = true)
    ∧ (∀ (st : CheckerState) (e : AstExpr), (gps_apply_expr st e).2 = true)
    ∧ (∀ (st : CheckerState) (s : AstSent), (gps_apply2 st s).2 = true)
    ∧ (∀ (st : CheckerState) (e : SymtabEntry), (gps_apply_symtab st e).2 = true) := by
  refine ⟨?_, ?_, ?_, ?_, ?_⟩
  · intro p
    have hinv := errorInv_traverseSent p.body initCheckerState [] errorInv_initCheckerState
    unfold gm_gps_opt_check_edge_value_process
    rw [ErrorInv] at hinv
    constructor
    · intro hok
      by_contra hne
      have := hinv.mpr hne
      simp [this] at hok
    · intro hnil
      cases herr : (traverseSent initCheckerState [] p.body)._error with
      | false => simp [herr]
      | true => exact absurd hnil (hinv.mp herr)
  · intro st anc s
    cases s <;> (simp only [gps_apply_sent]; repeat' split) <;> rfl
  · intro st e
    cases e <;> (simp only [gps_apply_expr]; repeat' split) <;> rfl
  · intro st s
    cases s <;> (simp only [gps_apply2]; repeat' split) <;> rfl
  · intro st e
    simp only [gps_apply_symtab]; repeat' split
    all_goals rfl

/-- Identities of the edge-typed symbols in a declaration list. -/
def edgeDeclIds (l : List SymtabEntry) : List Nat :=
  (l.filter (fun e => e.typeOf.is_edge)).map SymtabEntry.id

/-- Whether a declaration list declares at least one edge-typed symbol. -/
def hasEdgeDecl (l : List SymtabEntry) : Bool :=
  l.any (fun e => e.typeOf.is_edge)

mutual
/-- All symbols declared anywhere in a statement's subtree (iterator symbols
and block-scope declarations). -/
def allDecls : AstSent → List SymtabEntry
  | .sforeach _ _ iter decls body => iter.sym :: (decls ++ allDeclsList body)
  | .sassignField _ _ _ => []
  | .sassignScala _ _ _ => []
  | .sif _ _ t e => allDeclsList t ++ allDeclsList e
  | .swhile _ _ b => allDeclsList b
  | .sblock _ decls body => decls ++ allDeclsList body
/-- All symbols declared anywhere in a statement sequence. -/
def allDeclsList : AstSentList → List SymtabEntry
  | .nil => []
  | .cons s rest => allDecls s ++ allDeclsList rest
end

mutual
/-- Spec-side: the symbols declared inside the subtree of some foreach marked
`isInnerLoop`. -/
def declsUnderInner : AstSent → List SymtabEntry
  | .sforeach _ isInner iter decls body =>
      if isInner then iter.sym :: (decls ++ allDeclsList body)
      else declsUnderInnerList body
  | .sassignField _ _ _ => []
  | .sassignScala _ _ _ => []
  | .sif _ _ t e => declsUnderInnerList t ++ declsUnderInnerList e
  | .swhile _ _ b => declsUnderInnerList b
  | .sblock _ _ body => declsUnderInnerList body
/-- `declsUnderInner` over a statement sequence. -/
def declsUnderInnerList : AstSentList → List SymtabEntry
  | .nil => []
  | .cons s rest => declsUnderInner s ++ declsUnderInnerList rest
end

mutual
/-- Whether a subtree contains no foreach marked `isInnerLoop`. -/
def noInnerLoop : AstSent → Bool
  | .sforeach _ isInner _ _ body => !isInner && noInnerLoopList body
  | .sif _ _ t e => noInnerLoopList t && noInnerLoopList e
  | .swhile _ _ b => noInnerLoopList b
  | .sblock _ _ b => noInnerLoopList b
  | _ => true
/-- `noInnerLoop` over a statement sequence. -/
def noInnerLoopList : AstSentList → Bool
  | .nil => true
  | .cons s rest => noInnerLoop s && noInnerLoopList rest
end

mutual
/-- Whether no foreach marked `isInnerLoop` occurs inside another such
foreach's subtree (the nesting shape the spec's scope bookkeeping assumes). -/
def noNestedInner : AstSent → Bool
  | .sforeach _ isInner _ _ body =>
      if isInner then noInnerLoopList body else noNestedInnerList body
  | .sif _ _ t e => noNestedInnerList t && noNestedInnerList e
  | .swhile _ _ b => noNestedInnerList b
  | .sblock _ _ b => noNestedInnerList b
  | _ => true
/-- `noNestedInner` over a statement sequence. -/
def noNestedInnerList : AstSentList → Bool
  | .nil => true
  | .cons s rest => noNestedInner s && noNestedInnerList rest
end

mutual
/-- The node identities of all statements in a subtree. -/
def sentIds : AstSent → List Nat
  | .sforeach sid _ _ _ body => sid :: sentIdsList body
  | .sassignField sid _ _ => [sid]
  | .sassignScala sid _ _ => [sid]
  | .sif sid _ t e => sid :: (sentIdsList t ++ sentIdsList e)
  | .swhile sid _ b => sid :: sentIdsList b
  | .sblock sid _ b => sid :: sentIdsList b
/-- `sentIds` over a statement sequence. -/
def sentIdsList : AstSentList → List Nat
  | .nil => []
  | .cons s rest => sentIds s ++ sentIdsList rest
end

mutual
/-- Spec-side: the identities of the inner-marked foreach statements whose
subtree declares at least one edge-typed symbol. -/
def innerIdsWithEdgeDecl : AstSent → List Nat
  | .sforeach sid isInner iter decls body =>
      if isInner then
        if hasEdgeDecl (iter.sym :: (decls ++ allDeclsList body)) then [sid] else []
      else innerIdsWithEdgeDeclList body
  | .sif _ _ t e => innerIdsWithEdgeDeclList t ++ innerIdsWithEdgeDeclList e
  | .swhile _ _ b => innerIdsWithEdgeDeclList b
  | .sblock _ _ b => innerIdsWithEdgeDeclList b
  | _ => []
/-- `innerIdsWithEdgeDecl` over a statement sequence. -/
def innerIdsWithEdgeDeclList : AstSentList → List Nat
  | .nil => []
  | .cons s rest => innerIdsWithEdgeDecl s ++ innerIdsWithEdgeDeclList rest
end

mutual
/-- Spec-side reading of claim C6's binding condition: somewhere inside a
foreach marked `isInnerLoop` there is a scalar assignment binding the given
symbol whose right-hand side is the iterator-to-edge conversion builtin. -/
def hasIterToEdgeBinding (symId : Nat) (inInner : Bool) : AstSent → Bool
  | .sforeach _ isInner _ _ body =>
      hasIterToEdgeBindingList symId (inInner || isInner) body
  | .sassignScala _ lhs rhs =>
      inInner && (lhs.sym.id == symId) &&
        (match rhs with
         | .ebuiltin _ _ mid _ => mid == GM_BLTIN_NODE_TO_EDGE
         | _ => false)
  | .sif _ _ t e =>
      hasIterToEdgeBindingList symId inInner t || hasIterToEdgeBindingList symId inInner e
  | .swhile _ _ b => hasIterToEdgeBindingList symId inInner b
  | .sblock _ _ b => hasIterToEdgeBindingList symId inInner b
  | _ => false
/-- `hasIterToEdgeBinding` over a statement sequence. -/
def hasIterToEdgeBindingList (symId : Nat) (inInner : Bool) : AstSentList → Bool
  | .nil => false
  | .cons s rest =>
      hasIterToEdgeBinding symId inInner s || hasIterToEdgeBindingList symId inInner rest
end

/-- An outer-loop iterator symbol of node type. -/
def nOuterSym : SymtabEntry := ⟨1, "n", GmType.nodeTy⟩

/-- An inner-loop iterator symbol of node-iterator type. -/
def sInnerSym : SymtabEntry := ⟨2, "s", GmType.nodeIterTy⟩

/-- An edge-typed symbol declared in the inner loop's body block. -/
def fEdgeSym : SymtabEntry := ⟨50, "f", GmType.edgeTy⟩

/-- A program whose inner loop declares the edge-typed symbol `f` without any
binding statement at all (in particular without an iterator-to-edge
conversion): outer foreach (id 1), inner-marked foreach (id 2), body block
(id 3) declaring `f`. -/
def progC6 : AstProcdef :=
  ⟨AstSent.sforeach 1 false ⟨1, 9, nOuterSym⟩ []
    (AstSentList.cons
      (AstSent.sforeach 2 true ⟨2, 9, sInnerSym⟩ []
        (AstSentList.cons (AstSent.sblock 3 [fEdgeSym] AstSentList.nil)
          AstSentList.nil))
      AstSentList.nil)⟩

/-- Claim C6, refuted: the claim states that `GPS_FLAG_EDGE_DEFINED_INNER` is
set if and only if the symbol's unique binding statement is an
iterator-to-edge conversion inside an inner-marked loop.  In `progC6` the
edge symbol `f` (id 50) has no binding statement whatsoever, so the claimed
condition fails, yet the pass sets the flag merely because the declaration is
visited while an inner loop is active. -/
theorem C6_counterexample :
    (50 ∈ (gm_gps_opt_check_edge_value_process progC6).1.edgeDefinedInner)
    ∧ hasIterToEdgeBinding 50 false progC6.body = false := by
  constructor
  · decide
  · decide

/-- The statement callback never writes the two edge-binding marks. -/
theorem gps_apply_sent_preserves_marks (st : CheckerState) (anc : List AstSent)
    (s : AstSent) :
    (gps_apply_sent st anc s).1.edgeDefinedInner = st.edgeDefinedInner
    ∧ (gps_apply_sent st anc s).1.edgeDefiningInner = st.edgeDefiningInner := by
  cases s <;> refine ⟨?_, ?_⟩ <;>
    (simp only [gps_apply_sent]; repeat' split) <;> simp [reportError]

/-- The expression callback never writes the two edge-binding marks. -/
theorem gps_apply_expr_preserves_marks (st : CheckerState) (e : AstExpr) :
    (gps_apply_expr st e).1.edgeDefinedInner = st.edgeDefinedInner
    ∧ (gps_apply_expr st e).1.edgeDefiningInner = st.edgeDefiningInner := by
  cases e <;> refine ⟨?_, ?_⟩ <;>
    (simp only [gps_apply_expr]; repeat' split) <;> simp [reportError]

/-- The post-order callback never writes the two edge-binding marks. -/
theorem gps_apply2_preserves_marks (st : CheckerState) (s : AstSent) :
    (gps_apply2 st s).1.edgeDefinedInner = st.edgeDefinedInner
    ∧ (gps_apply2 st s).1.edgeDefiningInner = st.edgeDefiningInner := by
  cases s <;> refine ⟨?_, ?_⟩ <;>
    (simp only [gps_apply2]; repeat' split) <;> simp

/-- The four scan fields an expression walk can never touch. -/
def FixedScan (st r : CheckerState) : Prop :=
  r.edgeDefinedInner = st.edgeDefinedInner
  ∧ r.edgeDefiningInner = st.edgeDefiningInner
  ∧ r.inner_loop = st.inner_loop
  ∧ r.inner_iter = st.inner_iter

theorem fixedScan_rfl (st : CheckerState) : FixedScan st st :=
  ⟨Eq.refl _, Eq.refl _, Eq.refl _, Eq.refl _⟩

theorem fixedScan_trans {a b c : CheckerState}
    (h1 : FixedScan a b) (h2 : FixedScan b c) : FixedScan a c :=
  ⟨h2.1.trans h1.1, h2.2.1.trans h1.2.1, h2.2.2.1.trans h1.2.2.1,
    h2.2.2.2.trans h1.2.2.2⟩

theorem fixedScan_gps_apply_expr (st : CheckerState) (e : AstExpr) :
    FixedScan st (gps_apply_expr st e).1 :=
  ⟨(gps_apply_expr_preserves_marks st e).1, (gps_apply_expr_preserves_marks st e).2,
    (gps_apply_expr_preserves_inner st e).1, (gps_apply_expr_preserves_inner st e).2⟩

mutual
theorem fixedScan_traverseExpr : ∀ (e : AstExpr) (st : CheckerState),
    FixedScan st (traverseExpr st e)
  | .econst sc, st => by
      simpa [traverseExpr] using fixedScan_gps_apply_expr st (.econst sc)
  | .eid sc i, st => by
      simpa [traverseExpr] using fixedScan_gps_apply_expr st (.eid sc i)
  | .efield sc f, st => by
      simpa [traverseExpr] using fixedScan_gps_apply_expr st (.efield sc f)
  | .ebiop sc l r, st => by
      simp only [traverseExpr]
      exact fixedScan_trans
        (fixedScan_trans (fixedScan_gps_apply_expr st (.ebiop sc l r))
          (fixedScan_traverseExpr l _))
        (fixedScan_traverseExpr r _)
  | .ebuiltin sc d mid args, st => by
      simp only [traverseExpr]
      exact fixedScan_trans (fixedScan_gps_apply_expr st (.ebuiltin sc d mid args))
        (fixedScan_traverseExprs args _)
theorem fixedScan_traverseExprs : ∀ (l : AstExprList) (st : CheckerState),
    FixedScan st (traverseExprs st l)
  | .nil, st => by simpa [traverseExprs] using fixedScan_rfl st
  | .cons e rest, st => by
      simp only [traverseExprs]
      exact fixedScan_trans (fixedScan_traverseExpr e st)
        (fixedScan_traverseExprs rest _)
end

theorem edgeDeclIds_append (a b : List SymtabEntry) :
    edgeDeclIds (a ++ b) = edgeDeclIds a ++ edgeDeclIds b := by
  simp [edgeDeclIds, List.filter_append]

theorem edgeDeclIds_cons_edge (d : SymtabEntry) (rest : List SymtabEntry)
    (hd : d.typeOf.is_edge = true) :
    edgeDeclIds (d :: rest) = d.id :: edgeDeclIds rest := by
  simp [edgeDeclIds, List.filter_cons, hd]

theorem edgeDeclIds_cons_nonedge (d : SymtabEntry) (rest : List SymtabEntry)
    (hd : d.typeOf.is_edge = false) :
    edgeDeclIds (d :: rest) = edgeDeclIds rest := by
  simp [edgeDeclIds, List.filter_cons, hd]

theorem hasEdgeDecl_cons_edge (d : SymtabEntry) (rest : List SymtabEntry)
    (hd : d.typeOf.is_edge = true) :
    hasEdgeDecl (d :: rest) = true := by
  simp [hasEdgeDecl, List.any_cons, hd]

theorem hasEdgeDecl_cons_nonedge (d : SymtabEntry) (rest : List SymtabEntry)
    (hd : d.typeOf.is_edge = false) :
    hasEdgeDecl (d :: rest) = hasEdgeDecl rest := by
  simp [hasEdgeDecl, List.any_cons, hd]

theorem hasEdgeDecl_append (a b : List SymtabEntry) :
    hasEdgeDecl (a ++ b) = (hasEdgeDecl a || hasEdgeDecl b) := by
  simp [hasEdgeDecl, List.any_append]

/-- Unrolling the symbol-visit fold over a scope's declarations. -/
theorem applySymtabs_cons (st : CheckerState) (d : SymtabEntry)
    (rest : List SymtabEntry) :
    applySymtabs st (d :: rest) = applySymtabs (gps_apply_symtab st d).1 rest := rfl

/-- With no active inner loop the symbol callback is a no-op on the whole
state. -/
theorem applySymtabs_none (decls : List SymtabEntry) :
    ∀ st : CheckerState, st.inner_loop = none → applySymtabs st decls = st := by
  induction decls with
  | nil => intro st h; rfl
  | cons d rest ih =>
      intro st h
      have hstep : (gps_apply_symtab st d).1 = st := by
        simp [gps_apply_symtab, h]
      rw [applySymtabs_cons, hstep]
      exact ih st h

/-- With an active inner loop, visiting a scope's declarations marks exactly
the edge-typed symbols among them and marks the active loop as
edge-defining exactly when there is at least one. -/
theorem applySymtabs_some (decls : List SymtabEntry) :
    ∀ (st : CheckerState) (feId : Nat), st.inner_loop = some feId →
      (applySymtabs st decls).inner_loop = some feId
      ∧ (applySymtabs st decls).inner_iter = st.inner_iter
      ∧ (∀ x, x ∈ (applySymtabs st decls).edgeDefinedInner ↔
          x ∈ edgeDeclIds decls ∨ x ∈ st.edgeDefinedInner)
      ∧ (∀ y, y ∈ (applySymtabs st decls).edgeDefiningInner ↔
          (y = feId ∧ hasEdgeDecl decls = true) ∨ y ∈ st.edgeDefiningInner) := by
  induction decls with
  | nil =>
      intro st feId h
      exact ⟨h, rfl, fun x => by simp [applySymtabs, edgeDeclIds],
        fun y => by simp [applySymtabs, hasEdgeDecl]⟩
  | cons d rest ih =>
      intro st feId h
      rw [applySymtabs_cons]
      by_cases hd : d.typeOf.is_edge = true
      · have hstep : (gps_apply_symtab st d).1 =
            { st with edgeDefinedInner := d.id :: st.edgeDefinedInner,
                      edgeDefiningInner := feId :: st.edgeDefiningInner } := by
          simp [gps_apply_symtab, h, hd]
        rw [hstep]
        obtain ⟨h1, h2, h3, h4⟩ :=
          ih { st with edgeDefinedInner := d.id :: st.edgeDefinedInner,
                       edgeDefiningInner := feId :: st.edgeDefiningInner } feId h
        refine ⟨h1, h2, ?_, ?_⟩
        · intro x
          rw [h3 x, edgeDeclIds_cons_edge d rest hd]
          simp only [List.mem_cons]
          tauto
        · intro y
          rw [h4 y, hasEdgeDecl_cons_edge d rest hd]
          simp only [List.mem_cons, eq_self_iff_true, and_true]
          tauto
      · have hd' : d.typeOf.is_edge = false := by simpa using hd
        have hstep : (gps_apply_symtab st d).1 = st := by
          simp [gps_apply_symtab, h, hd']
        rw [hstep]
        obtain ⟨h1, h2, h3, h4⟩ := ih st feId h
        refine ⟨h1, h2, ?_, ?_⟩
        · intro x
          rw [h3 x, edgeDeclIds_cons_nonedge d rest hd']
        · intro y
          rw [h4 y, hasEdgeDecl_cons_nonedge d rest hd']

/-- What a walk entirely inside one active inner loop does to the scan state:
the loop stays current, the iterator is untouched, exactly the edge-typed
symbols among the declarations `ds` are added to the defined-inner mark set,
and the current loop is added to the defining-inner mark set exactly when
`ds` has an edge-typed symbol. -/
def InnerPost (st r : CheckerState) (feId : Nat) (ds : List SymtabEntry) : Prop :=
  r.inner_loop = some feId
  ∧ r.inner_iter = st.inner_iter
  ∧ (∀ x, x ∈ r.edgeDefinedInner ↔ x ∈ edgeDeclIds ds ∨ x ∈ st.edgeDefinedInner)
  ∧ (∀ y, y ∈ r.edgeDefiningInner ↔
      (y = feId ∧ hasEdgeDecl ds = true) ∨ y ∈ st.edgeDefiningInner)

theorem innerPost_trans {st mid r : CheckerState} {feId : Nat}
    {ds1 ds2 : List SymtabEntry} (h1 : InnerPost st mid feId ds1)
    (h2 : InnerPost mid r feId ds2) : InnerPost st r feId (ds1 ++ ds2) := by
  obtain ⟨a1, a2, a3, a4⟩ := h1
  obtain ⟨b1, b2, b3, b4⟩ := h2
  refine ⟨b1, b2.trans a2, ?_, ?_⟩
  · intro x
    rw [b3 x, a3 x, edgeDeclIds_append]
    simp [List.mem_append]
    tauto
  · intro y
    rw [b4 y, a4 y, hasEdgeDecl_append]
    simp only [Bool.or_eq_true]
    tauto

theorem innerPost_fixedScan_left {st mid r : CheckerState} {feId : Nat}
    {ds : List SymtabEntry} (h : FixedScan st mid)
    (h2 : InnerPost mid r feId ds) : InnerPost st r feId ds := by
  obtain ⟨m1, m2, m3, m4⟩ := h
  obtain ⟨b1, b2, b3, b4⟩ := h2
  refine ⟨b1, b2.trans m4, ?_, ?_⟩
  · intro x
    rw [b3 x, m1]
  · intro y
    rw [b4 y, m2]

theorem innerPost_fixedScan_right {st mid r : CheckerState} {feId : Nat}
    {ds : List SymtabEntry} (h1 : InnerPost st mid feId ds)
    (h : FixedScan mid r) : InnerPost st r feId ds := by
  obtain ⟨a1, a2, a3, a4⟩ := h1
  obtain ⟨m1, m2, m3, m4⟩ := h
  refine ⟨m3.trans a1, m4.trans a2, ?_, ?_⟩
  · intro x
    rw [m1, a3 x]
  · intro y
    rw [m2, a4 y]

theorem innerPost_of_fixedScan {st r : CheckerState} {feId : Nat}
    (h : FixedScan st r) (hl : st.inner_loop = some feId) :
    InnerPost st r feId [] := by
  obtain ⟨m1, m2, m3, m4⟩ := h
  refine ⟨m3.trans hl, m4, ?_, ?_⟩ <;> intro z <;>
    simp [m1, m2, edgeDeclIds, hasEdgeDecl]

/-- `applySymtabs` under an active inner loop, in `InnerPost` form. -/
theorem innerPost_applySymtabs (decls : List SymtabEntry) (st : CheckerState)
    (feId : Nat) (h : st.inner_loop = some feId) :
    InnerPost st (applySymtabs st decls) feId decls :=
  applySymtabs_some decls st feId h

/-- The statement callback on a statement that is not an inner-marked foreach
keeps the whole scan state fixed. -/
theorem fixedScan_gps_apply_sent (st : CheckerState) (anc : List AstSent)
    (s : AstSent) (hs : isInnerMarkedForeach s = false) :
    FixedScan st (gps_apply_sent st anc s).1 :=
  ⟨(gps_apply_sent_preserves_marks st anc s).1,
    (gps_apply_sent_preserves_marks st anc s).2,
    (gps_apply_sent_preserves_inner st anc s hs).1,
    (gps_apply_sent_preserves_inner st anc s hs).2⟩

/-- The post-order callback keeps the scan state fixed unless it is visiting
the foreach whose identity is currently stored in `inner_loop`. -/
theorem fixedScan_gps_apply2 (st : CheckerState) (s : AstSent)
    (hs : ∀ sid, foreachIdOf s = some sid → st.inner_loop ≠ some sid) :
    FixedScan st (gps_apply2 st s).1 := by
  cases s with
  | sforeach sid b iter decls body =>
      have hne : st.inner_loop ≠ some sid := hs sid rfl
      refine ⟨?_, ?_, ?_, ?_⟩ <;> simp [gps_apply2, hne]
  | sassignField sid lhs rhs => exact ⟨rfl, rfl, rfl, rfl⟩
  | sassignScala sid lhs rhs => exact ⟨rfl, rfl, rfl, rfl⟩
  | sif sid cond t e => exact fixedScan_rfl st
  | swhile sid cond body => exact fixedScan_rfl st
  | sblock sid decls body => exact fixedScan_rfl st

mutual
theorem traverseSent_inner : ∀ (s : AstSent) (st : CheckerState)
    (anc : List AstSent) (feId : Nat), noInnerLoop s = true →
    feId ∉ sentIds s → st.inner_loop = some feId →
    InnerPost st (traverseSent st anc s) feId (allDecls s)
  | .sforeach sid b iter decls body, st, anc, feId, hni, hid, h => by
      simp only [noInnerLoop, Bool.and_eq_true, Bool.not_eq_true'] at hni
      obtain ⟨hb, hbody⟩ := hni
      subst hb
      simp only [sentIds, List.mem_cons] at hid
      push_neg at hid
      obtain ⟨hneq, hbid⟩ := hid
      simp only [traverseSent]
      have hst1 : (gps_apply_sent st anc
          (.sforeach sid false iter decls body)).1 = st := rfl
      rw [hst1, ← applySymtabs_cons]
      have hA := innerPost_applySymtabs (iter.sym :: decls) st feId h
      have hB := traverseSents_inner body _ (.sforeach sid false iter decls body :: anc)
        feId hbody hbid hA.1
      have hAB := innerPost_trans hA hB
      simp only [allDecls]
      exact innerPost_fixedScan_right hAB
        (fixedScan_gps_apply2 _ (.sforeach sid false iter decls body)
          (by intro sid2 hsid2 hcontra
              simp only [foreachIdOf, Option.some.injEq] at hsid2
              rw [hAB.1, Option.some.injEq] at hcontra
              exact hneq (hcontra.trans hsid2.symm)))
  | .sassignField sid lhs rhs, st, anc, feId, hni, hid, h => by
      simp only [traverseSent, allDecls]
      exact innerPost_of_fixedScan
        (fixedScan_trans
          (fixedScan_trans
            (fixedScan_gps_apply_sent st anc (.sassignField sid lhs rhs) rfl)
            (fixedScan_traverseExpr rhs _))
          (fixedScan_gps_apply2 _ (.sassignField sid lhs rhs)
            (by intro sid2 hsid2; simp [foreachIdOf] at hsid2)))
        h
  | .sassignScala sid lhs rhs, st, anc, feId, hni, hid, h => by
      simp only [traverseSent, allDecls]
      exact innerPost_of_fixedScan
        (fixedScan_trans
          (fixedScan_trans
            (fixedScan_gps_apply_sent st anc (.sassignScala sid lhs rhs) rfl)
            (fixedScan_traverseExpr rhs _))
          (fixedScan_gps_apply2 _ (.sassignScala sid lhs rhs)
            (by intro sid2 hsid2; simp [foreachIdOf] at hsid2)))
        h
  | .sif sid cond t e, st, anc, feId, hni, hid, h => by
      simp only [noInnerLoop, Bool.and_eq_true] at hni
      obtain ⟨ht, he⟩ := hni
      simp only [sentIds, List.mem_cons, List.mem_append] at hid
      push_neg at hid
      obtain ⟨hneq, htid, heid⟩ := hid
      simp only [traverseSent]
      have hst1 : (gps_apply_sent st anc (.sif sid cond t e)).1 = st := rfl
      rw [hst1]
      have hcond := fixedScan_traverseExpr cond st
      have hT := traverseSents_inner t _ (.sif sid cond t e :: anc) feId ht htid
        (hcond.2.2.1.trans h)
      have hE := traverseSents_inner e _ (.sif sid cond t e :: anc) feId he heid
        hT.1
      have hTE := innerPost_trans (innerPost_fixedScan_left hcond hT) hE
      simp only [allDecls]
      exact innerPost_fixedScan_right hTE
        (fixedScan_gps_apply2 _ (.sif sid cond t e)
          (by intro sid2 hsid2; simp [foreachIdOf] at hsid2))
  | .swhile sid cond body, st, anc, feId, hni, hid, h => by
      simp only [noInnerLoop] at hni
      simp only [sentIds, List.mem_cons] at hid
      push_neg at hid
      obtain ⟨hneq, hbid⟩ := hid
      simp only [traverseSent]
      have hst1 : (gps_apply_sent st anc (.swhile sid cond body)).1 = st := rfl
      rw [hst1]
      have hcond := fixedScan_traverseExpr cond st
      have hB := traverseSents_inner body _ (.swhile sid cond body :: anc) feId hni
        hbid (hcond.2.2.1.trans h)
      simp only [allDecls]
      exact innerPost_fixedScan_right (innerPost_fixedScan_left hcond hB)
        (fixedScan_gps_apply2 _ (.swhile sid cond body)
          (by intro sid2 hsid2; simp [foreachIdOf] at hsid2))
  | .sblock sid decls body, st, anc, feId, hni, hid, h => by
      simp only [noInnerLoop] at hni
      simp only [sentIds, List.mem_cons] at hid
      push_neg at hid
      obtain ⟨hneq, hbid⟩ := hid
      simp only [traverseSent]
      have hst1 : (gps_apply_sent st anc (.sblock sid decls body)).1 = st := rfl
      rw [hst1]
      have hA := innerPost_applySymtabs decls st feId h
      have hB := traverseSents_inner body _ (.sblock sid decls body :: anc) feId hni
        hbid hA.1
      simp only [allDecls]
      exact innerPost_fixedScan_right (innerPost_trans hA hB)
        (fixedScan_gps_apply2 _ (.sblock sid decls body)
          (by intro sid2 hsid2; simp [foreachIdOf] at hsid2))
theorem traverseSents_inner : ∀ (l : AstSentList) (st : CheckerState)
    (anc : List AstSent) (feId : Nat), noInnerLoopList l = true →
    feId ∉ sentIdsList l → st.inner_loop = some feId →
    InnerPost st (traverseSents st anc l) feId (allDeclsList l)
  | .nil, st, anc, feId, hni, hid, h => by
      simp only [traverseSents]
      refine ⟨h, rfl, ?_, ?_⟩ <;> intro z <;>
        simp [allDeclsList, edgeDeclIds, hasEdgeDecl]
  | .cons s rest, st, anc, feId, hni, hid, h => by
      simp only [noInnerLoopList, Bool.and_eq_true] at hni
      obtain ⟨hs, hrest⟩ := hni
      simp only [sentIdsList, List.mem_append] at hid
      push_neg at hid
      obtain ⟨hsid, hrid⟩ := hid
      simp only [traverseSents]
      have h1 := traverseSent_inner s st anc feId hs hsid h
      have h2 := traverseSents_inner rest _ anc feId hrest hrid h1.1
      simpa [allDeclsList] using innerPost_trans h1 h2
end

/-- What a walk outside any active inner loop does to the scan state: the
tracker fields end clear, the defined-inner mark set gains exactly the
edge-typed symbols declared under some inner-marked loop in the subtree, and
the defining-inner mark set gains exactly the inner-marked loops of the
subtree that declare an edge-typed symbol. -/
def OuterPost (st r : CheckerState) (ds : List SymtabEntry) (ids : List Nat) : Prop :=
  r.inner_loop = none
  ∧ r.inner_iter = none
  ∧ (∀ x, x ∈ r.edgeDefinedInner ↔ x ∈ edgeDeclIds ds ∨ x ∈ st.edgeDefinedInner)
  ∧ (∀ y, y ∈ r.edgeDefiningInner ↔ y ∈ ids ∨ y ∈ st.edgeDefiningInner)

theorem outerPost_trans {st mid r : CheckerState} {ds1 ds2 : List SymtabEntry}
    {ids1 ids2 : List Nat} (h1 : OuterPost st mid ds1 ids1)
    (h2 : OuterPost mid r ds2 ids2) :
    OuterPost st r (ds1 ++ ds2) (ids1 ++ ids2) := by
  refine ⟨h2.1, h2.2.1, ?_, ?_⟩
  · intro x
    rw [h2.2.2.1 x, h1.2.2.1 x, edgeDeclIds_append]
    simp [List.mem_append]
    tauto
  · intro y
    rw [h2.2.2.2 y, h1.2.2.2 y]
    simp [List.mem_append]
    tauto

theorem outerPost_fixedScan_left {st mid r : CheckerState}
    {ds : List SymtabEntry} {ids : List Nat} (h : FixedScan st mid)
    (h2 : OuterPost mid r ds ids) : OuterPost st r ds ids :=
  ⟨h2.1, h2.2.1, fun x => by rw [h2.2.2.1 x, h.1],
    fun y => by rw [h2.2.2.2 y, h.2.1]⟩

theorem outerPost_fixedScan_right {st mid r : CheckerState}
    {ds : List SymtabEntry} {ids : List Nat} (h1 : OuterPost st mid ds ids)
    (h : FixedScan mid r) : OuterPost st r ds ids :=
  ⟨h.2.2.1.trans h1.1, h.2.2.2.trans h1.2.1,
    fun x => by rw [h.1, h1.2.2.1 x], fun y => by rw [h.2.1, h1.2.2.2 y]⟩

theorem outerPost_of_fixedScan {st r : CheckerState} (h : FixedScan st r)
    (hl : st.inner_loop = none) (hi : st.inner_iter = none) :
    OuterPost st r [] [] :=
  ⟨h.2.2.1.trans hl, h.2.2.2.trans hi,
    fun x => by simp [h.1, edgeDeclIds], fun y => by simp [h.2.1]⟩

mutual
theorem traverseSent_outer : ∀ (s : AstSent) (st : CheckerState)
    (anc : List AstSent), noNestedInner s = true → (sentIds s).Nodup →
    st.inner_loop = none → st.inner_iter = none →
    OuterPost st (traverseSent st anc s) (declsUnderInner s)
      (innerIdsWithEdgeDecl s)
  | .sforeach sid b iter decls body, st, anc, hnn, hnd, h, hi => by
      cases b with
      | true =>
          simp only [noNestedInner, if_true] at hnn
          simp only [sentIds, List.nodup_cons] at hnd
          obtain ⟨hsid, _⟩ := hnd
          simp only [traverseSent]
          rw [← applySymtabs_cons]
          have hA := innerPost_applySymtabs (iter.sym :: decls)
            (gps_apply_sent st anc (.sforeach sid true iter decls body)).1 sid rfl
          have hB := traverseSents_inner body _
            (.sforeach sid true iter decls body :: anc) sid hnn hsid hA.1
          have hAB := innerPost_trans hA hB
          have happly2 : (gps_apply2 (traverseSents (applySymtabs
              (gps_apply_sent st anc (.sforeach sid true iter decls body)).1
              (iter.sym :: decls))
              (.sforeach sid true iter decls body :: anc) body)
              (.sforeach sid true iter decls body)).1 =
              { (traverseSents (applySymtabs
                  (gps_apply_sent st anc (.sforeach sid true iter decls body)).1
                  (iter.sym :: decls))
                  (.sforeach sid true iter decls body :: anc) body) with
                inner_loop := none, inner_iter := none } := by
            simp [gps_apply2, hAB.1]
          rw [happly2]
          refine ⟨rfl, rfl, ?_, ?_⟩
          · intro x
            have := hAB.2.2.1 x
            simp only [declsUnderInner]
            exact this
          · intro y
            have hy := hAB.2.2.2 y
            have hdef : (gps_apply_sent st anc
                (.sforeach sid true iter decls body)).1.edgeDefiningInner
                = st.edgeDefiningInner := rfl
            rw [hdef] at hy
            simp only [innerIdsWithEdgeDecl, if_true]
            rw [hy]
            by_cases he : hasEdgeDecl (iter.sym :: (decls ++ allDeclsList body)) = true
            · simp [he]
            · have he2 : hasEdgeDecl (iter.sym :: (decls ++ allDeclsList body))
                  = false := by simpa using he
              simp [he2]
      | false =>
          simp only [noNestedInner, if_neg] at hnn
          simp only [sentIds, List.nodup_cons] at hnd
          obtain ⟨_, hnd2⟩ := hnd
          simp only [traverseSent]
          have hst1 : (gps_apply_sent st anc
              (.sforeach sid false iter decls body)).1 = st := rfl
          rw [hst1, ← applySymtabs_cons, applySymtabs_none (iter.sym :: decls) st h]
          have hB := traverseSents_outer body st
            (.sforeach sid false iter decls body :: anc) hnn hnd2 h hi
          exact outerPost_fixedScan_right hB
            (fixedScan_gps_apply2 _ (.sforeach sid false iter decls body)
              (by intro sid2 _ hcontra
                  rw [hB.1] at hcontra
                  exact Option.noConfusion hcontra))
  | .sassignField sid lhs rhs, st, anc, hnn, hnd, h, hi => by
      simp only [traverseSent, declsUnderInner, innerIdsWithEdgeDecl]
      exact outerPost_of_fixedScan
        (fixedScan_trans
          (fixedScan_trans
            (fixedScan_gps_apply_sent st anc (.sassignField sid lhs rhs) rfl)
            (fixedScan_traverseExpr rhs _))
          (fixedScan_gps_apply2 _ (.sassignField sid lhs rhs)
            (by intro sid2 hsid2; simp [foreachIdOf] at hsid2)))
        h hi
  | .sassignScala sid lhs rhs, st, anc, hnn, hnd, h, hi => by
      simp only [traverseSent, declsUnderInner, innerIdsWithEdgeDecl]
      exact outerPost_of_fixedScan
        (fixedScan_trans
          (fixedScan_trans
            (fixedScan_gps_apply_sent st anc (.sassignScala sid lhs rhs) rfl)
            (fixedScan_traverseExpr rhs _))
          (fixedScan_gps_apply2 _ (.sassignScala sid lhs rhs)
            (by intro sid2 hsid2; simp [foreachIdOf] at hsid2)))
        h hi
  | .sif sid cond t e, st, anc, hnn, hnd, h, hi => by
      simp only [noNestedInner, Bool.and_eq_true] at hnn
      obtain ⟨ht, he⟩ := hnn
      simp only [sentIds, List.nodup_cons] at hnd
      obtain ⟨_, hnd2⟩ := hnd
      have htnd := hnd2.of_append_left
      have hend := hnd2.of_append_right
      simp only [traverseSent]
      have hst1 : (gps_apply_sent st anc (.sif sid cond t e)).1 = st := rfl
      rw [hst1]
      have hcond := fixedScan_traverseExpr cond st
      have hT := traverseSents_outer t _ (.sif sid cond t e :: anc) ht htnd
        (hcond.2.2.1.trans h) (hcond.2.2.2.trans hi)
      have hE := traverseSents_outer e _ (.sif sid cond t e :: anc) he hend
        hT.1 hT.2.1
      have hTE := outerPost_trans (outerPost_fixedScan_left hcond hT) hE
      simp only [declsUnderInner, innerIdsWithEdgeDecl]
      exact outerPost_fixedScan_right hTE
        (fixedScan_gps_apply2 _ (.sif sid cond t e)
          (by intro sid2 hsid2; simp [foreachIdOf] at hsid2))
  | .swhile sid cond body, st, anc, hnn, hnd, h, hi => by
      simp only [noNestedInner] at hnn
      simp only [sentIds, List.nodup_cons] at hnd
      obtain ⟨_, hnd2⟩ := hnd
      simp only [traverseSent]
      have hst1 : (gps_apply_sent st anc (.swhile sid cond body)).1 = st := rfl
      rw [hst1]
      have hcond := fixedScan_traverseExpr cond st
      have hB := traverseSents_outer body _ (.swhile sid cond body :: anc) hnn hnd2
        (hcond.2.2.1.trans h) (hcond.2.2.2.trans hi)
      simp only [declsUnderInner, innerIdsWithEdgeDecl]
      exact outerPost_fixedScan_right (outerPost_fixedScan_left hcond hB)
        (fixedScan_gps_apply2 _ (.swhile sid cond body)
          (by intro sid2 hsid2; simp [foreachIdOf] at hsid2))
  | .sblock sid decls body, st, anc, hnn, hnd, h, hi => by
      simp only [noNestedInner] at hnn
      simp only [sentIds, List.nodup_cons] at hnd
      obtain ⟨_, hnd2⟩ := hnd
      simp only [traverseSent]
      have hst1 : (gps_apply_sent st anc (.sblock sid decls body)).1 = st := rfl
      rw [hst1, applySymtabs_none decls st h]
      have hB := traverseSents_outer body st (.sblock sid decls body :: anc) hnn hnd2
        h hi
      simp only [declsUnderInner, innerIdsWithEdgeDecl]
      exact outerPost_fixedScan_right hB
        (fixedScan_gps_apply2 _ (.sblock sid decls body)
          (by intro sid2 hsid2; simp [foreachIdOf] at hsid2))
theorem traverseSents_outer : ∀ (l : AstSentList) (st : CheckerState)
    (anc : List AstSent), noNestedInnerList l = true → (sentIdsList l).Nodup →
    st.inner_loop = none → st.inner_iter = none →
    OuterPost st (traverseSents st anc l) (declsUnderInnerList l)
      (innerIdsWithEdgeDeclList l)
  | .nil, st, anc, hnn, hnd, h, hi => by
      simp only [traverseSents, declsUnderInnerList, innerIdsWithEdgeDeclList]
      exact outerPost_of_fixedScan (fixedScan_rfl st) h hi
  | .cons s rest, st, anc, hnn, hnd, h, hi => by
      simp only [noNestedInnerList, Bool.and_eq_true] at hnn
      obtain ⟨hs, hrest⟩ := hnn
      simp only [sentIdsList] at hnd
      have hsnd := hnd.of_append_left
      have hrnd := hnd.of_append_right
      simp only [traverseSents]
      have h1 := traverseSent_outer s st anc hs hsnd h hi
      have h2 := traverseSents_outer rest _ anc hrest hrnd h1.1 h1.2.1
      simp only [declsUnderInnerList, innerIdsWithEdgeDeclList]
      exact outerPost_trans h1 h2
end

/-- Claim C6, amended: for a procedure whose inner-marked loops are not
nested and whose statement identities are distinct, `GPS_FLAG_EDGE_DEFINED_INNER`
is set exactly on the edge-typed symbols declared anywhere inside an
inner-marked loop — no iterator-to-edge binding (indeed no binding at all) is
required — and `GPS_FLAG_EDGE_DEFINING_INNER` is set exactly on the
inner-marked loops whose scope declares at least one edge-typed symbol. -/
theorem C6_amended (p : AstProcdef)
    (h1 : noNestedInner p.body = true)
    (h2 : (sentIds p.body).Nodup) :
    (∀ x, x ∈ (gm_gps_opt_check_edge_value_process p).1.edgeDefinedInner
        ↔ x ∈ edgeDeclIds (declsUnderInner p.body))
    ∧ (∀ y, y ∈ (gm_gps_opt_check_edge_value_process p).1.edgeDefiningInner
        ↔ y ∈ innerIdsWithEdgeDecl p.body) := by
  have h := traverseSent_outer p.body initCheckerState [] h1 h2 rfl rfl
  constructor
  · intro x
    have hx := h.2.2.1 x
    simp only [initCheckerState, List.not_mem_nil, or_false] at hx
    exact hx
  · intro y
    have hy := h.2.2.2 y
    simp only [initCheckerState, List.not_mem_nil, or_false] at hy
    exact hy

/-- Concrete instantiation of the amended claim C6 on `progC6`: the pass
marks exactly the edge symbol `f` (id 50), and marks exactly the inner loop
(id 2) as edge-defining. -/
theorem C6_amended_witness :
    ((50 ∈ (gm_gps_opt_check_edge_value_process progC6).1.edgeDefinedInner
      ↔ 50 ∈ edgeDeclIds (declsUnderInner progC6.body))
    ∧ (2 ∈ (gm_gps_opt_check_edge_value_process progC6).1.edgeDefiningInner
      ↔ 2 ∈ innerIdsWithEdgeDecl progC6.body))
    ∧ noNestedInner progC6.body = true ∧ (sentIds progC6.body).Nodup :=
  ⟨⟨(C6_amended progC6 (by decide) (by decide)).1 50,
    (C6_amended progC6 (by decide) (by decide)).2 2⟩,
    by decide, by decide⟩

/-- An edge variable symbol bound in the inner loop (id 3). -/
def eEdgeSym : SymtabEntry := ⟨3, "e", GmType.edgeTy⟩

/-- An edge property symbol (id 4). -/
def APropSym : SymtabEntry := ⟨4, "A", GmType.scalarTy⟩

/-- An edge variable symbol never bound in an inner loop (id 7). -/
def gEdgeSym : SymtabEntry := ⟨7, "g", GmType.edgeTy⟩

/-- The field access `e.A` at line 10. -/
def fldEA : AstField := ⟨10, 5, ⟨10, 1, eEdgeSym⟩, ⟨10, 3, APropSym⟩, GmType.edgeTy⟩

/-- The field access `g.A` at line 11. -/
def fldGA : AstField := ⟨11, 5, ⟨11, 1, gEdgeSym⟩, ⟨11, 3, APropSym⟩, GmType.edgeTy⟩

/-- A literal right-hand side. -/
def rhsConst : AstExpr := .econst .GPS_NEW_SCOPE_NONE

/-- A scan state inside inner loop 2, with `e` marked defined-in-inner-loop
and the pair (loop 2, property A) already in state `SENT_WRITE`. -/
def stMarked : CheckerState :=
  { initCheckerState with
      edgeDefinedInner := [3]
      inner_loop := some 2
      accessMap := [((2, 4), EdgeValueState.SENT_WRITE)] }

/-- A scan state with the RHS window of an edge-property write open. -/
def stTgt : CheckerState := { initCheckerState with target_is_edge_prop := true }

/-- An if statement node used as an ancestor (id 7). -/
def ancIf : AstSent := .sif 7 rhsConst .nil .nil

/-- The inner loop node (id 2) used as an ancestor. -/
def ancLoop : AstSent := .sforeach 2 true ⟨2, 9, sInnerSym⟩ [] .nil

/-- Concrete instantiation of claim C2: a send on `e.A` while (loop 2, A) is
in state `SENT_WRITE` advances the map by the machine step (to `ERROR`) and
appends exactly the `EDGE_SEND_TWO_VERSIONS` diagnostic. -/
theorem C2_witness :
    fldEA.sourceType.is_edge_compatible = true
    ∧ stMarked.edgeDefinedInner.contains fldEA.first.sym.id = true
    ∧ stMarked.inner_loop = some 2
    ∧ (gps_apply_expr stMarked (.efield .GPS_NEW_SCOPE_NONE fldEA)).1.accessMap
        = (manage_edge_prop_access_state stMarked.accessMap 2 fldEA.second.sym.id
            EdgeOp.SENDING).1 :=
  ⟨by decide, by decide, by decide,
    (C2_send_two_versions.1 stMarked .GPS_NEW_SCOPE_NONE fldEA 2
      (by decide) (by decide) (by decide)).2⟩

/-- Concrete instantiation of claim C3: an edge-property write below an if
inside inner loop 2 opens the RHS window (and, per the full theorem, reports
`EDGE_WRITE_CONDITIONAL`). -/
theorem C3_witness :
    fldEA.first.sym.typeOf.is_edge_compatible = true
    ∧ stMarked.edgeDefinedInner.contains fldEA.first.sym.id = true
    ∧ stMarked.inner_loop = some 2
    ∧ (gps_apply_sent stMarked [ancIf, ancLoop]
        (.sassignField 8 fldEA rhsConst)).1.target_is_edge_prop = true :=
  ⟨by decide, by decide, by decide,
    (C3_write_conditional stMarked [ancIf, ancLoop] 8 2 fldEA rhsConst
      (by decide) (by decide) (by decide)).2.1⟩

/-- Concrete instantiation of claim C4: reading `g.A` with `g` unmarked
leaves the access map untouched. -/
theorem C4_witness :
    fldGA.sourceType.is_edge_compatible = true
    ∧ initCheckerState.edgeDefinedInner.contains fldGA.first.sym.id = false
    ∧ (gps_apply_expr initCheckerState
        (.efield .GPS_NEW_SCOPE_NONE fldGA)).1.accessMap
        = initCheckerState.accessMap :=
  ⟨by decide, by decide,
    (C4_read_random initCheckerState .GPS_NEW_SCOPE_NONE fldGA
      (by decide) (by decide)).1⟩

/-- Concrete instantiation of claim C5: with the window open, an
inner-scoped field sub-expression appends exactly one `EDGE_WRITE_RHS`
diagnostic naming its base symbol. -/
theorem C5_witness :
    stTgt.target_is_edge_prop = true
    ∧ (gps_apply_expr stTgt (.efield .GPS_NEW_SCOPE_IN fldGA)).1.diags.filter
          (fun d => d.kind == .GM_ERROR_GPS_EDGE_WRITE_RHS)
        = stTgt.diags.filter (fun d => d.kind == .GM_ERROR_GPS_EDGE_WRITE_RHS)
          ++ [⟨.GM_ERROR_GPS_EDGE_WRITE_RHS, fldGA.line, fldGA.col,
              some fldGA.first.sym.orgname⟩] :=
  ⟨by decide,
    C5_write_rhs.1 stTgt .GPS_NEW_SCOPE_IN fldGA (by decide) (Or.inl rfl)⟩

/-- Concrete instantiation of claim C8: the post-order visit of the foreach
whose identity is stored in `inner_loop` clears the tracker fields. -/
theorem C8_witness :
    stMarked.inner_loop = some 2
    ∧ (gps_apply2 stMarked (.sforeach 2 true ⟨2, 9, sInnerSym⟩ []
        AstSentList.nil)).1.inner_loop = none :=
  ⟨by decide,
    (C8_inner_loop_lifecycle.2.2.1 stMarked 2 true ⟨2, 9, sInnerSym⟩ []
      AstSentList.nil (by decide)).1⟩

/-- Concrete instantiation of claim C10: an assignment to `g.A` with `g`
unmarked leaves the state untouched and continues. -/
theorem C10_witness :
    fldGA.first.sym.typeOf.is_edge_compatible = true
    ∧ initCheckerState.edgeDefinedInner.contains fldGA.first.sym.id = false
    ∧ gps_apply_sent initCheckerState [] (.sassignField 4 fldGA rhsConst)
        = (initCheckerState, true) :=
  ⟨by decide, by decide,
    C10_unmarked_edge_write_ignored initCheckerState [] 4 fldGA rhsConst
      (by decide) (by decide)⟩
